import Mathlib

/-!
Shallow embedding of the http-serve repository (Rust), covering both
implementations present in the source tree:

* src/serving.rs — the current futures-based implementation
  (exercised by tests/entity-acceptance.rs), embedded as the
  definitions in namespace Serving below plus the common helpers.
* src/lib.rs — the older synchronous implementation, embedded as the
  definitions in namespace LibRs below.

Machine integers (u64) are modelled as Nat; where overflow matters
(the range_to + 1 computation and the u64 sums in serving.rs) the
embedding applies an explicit modulus by 2 ^ 64, matching the wrapping
semantics of release-mode Rust arithmetic.
-/

namespace HttpServe

/-- 2 ^ 64, the modulus of u64 arithmetic. -/
def U64 : Nat := 2 ^ 64

/-- hyper header::EntityTag: a weak/strong flag and an opaque tag string. -/
structure EntityTag where
  isWeak : Bool
  tag : String
deriving DecidableEq, Repr

/-- EntityTag::strong_eq from hyper: both tags strong and values equal. -/
def EntityTag.strongEq (a b : EntityTag) : Bool :=
  !a.isWeak && !b.isWeak && a.tag == b.tag

/-- EntityTag::weak_eq from hyper: values equal regardless of strength. -/
def EntityTag.weakEq (a b : EntityTag) : Bool :=
  a.tag == b.tag

/-- std::ops::Range of u64 as used for byte ranges.  The field stop is
the Rust field named end, which is a reserved word in Lean. -/
structure ByteRange where
  start : Nat
  stop : Nat
deriving DecidableEq, Repr

/-- hyper header::ByteRangeSpec: the three byte-range-set unit forms. -/
inductive ByteRangeSpec where
  | fromTo (rangeFrom rangeTo : Nat)
  | allFrom (rangeFrom : Nat)
  | last (n : Nat)
deriving DecidableEq, Repr

/-- hyper header::Range: a bytes range set, or a non-bytes unit. -/
inductive RangeHeader where
  | bytes (units : List ByteRangeSpec)
  | unregistered
deriving DecidableEq, Repr

/-- ResolvedRanges from serving.rs and lib.rs (identical in both). -/
inductive ResolvedRanges where
  | none
  | notSatisfiable
  | satisfiable (rs : List ByteRange)
deriving DecidableEq, Repr

/-- One iteration of the loop in parse_range_header: a unit either
pushes one clamped half-open range or is skipped.  In the FromTo arm
the source computes range_to + 1 in u64, which wraps at 2 ^ 64; the
modulus makes that explicit. -/
def resolveUnit (len : Nat) : ByteRangeSpec → Option ByteRange
  | ByteRangeSpec.fromTo rangeFrom rangeTo =>
    let e := min ((rangeTo + 1) % U64) len
    if rangeFrom ≥ e then Option.none else Option.some ⟨rangeFrom, e⟩
  | ByteRangeSpec.allFrom rangeFrom =>
    if rangeFrom ≥ len then Option.none else Option.some ⟨rangeFrom, len⟩
  | ByteRangeSpec.last n =>
    if n ≥ len then Option.none else Option.some ⟨len - n, len⟩

/-- parse_range_header (identical in serving.rs and lib.rs): the loop
collects the ranges pushed per unit, here rendered as a filterMap of
resolveUnit over the units in order. -/
def parse_range_header (range : Option RangeHeader) (len : Nat) : ResolvedRanges :=
  match range with
  | Option.some (RangeHeader.bytes byte_ranges) =>
    let ranges := byte_ranges.filterMap (resolveUnit len)
    if ranges.isEmpty then ResolvedRanges.notSatisfiable
    else ResolvedRanges.satisfiable ranges
  | _ => ResolvedRanges.none

/-- Request method; only GET and HEAD are distinguished by the code. -/
inductive Method where
  | get
  | head
  | other
deriving DecidableEq, Repr

/-- hyper header::IfMatch. -/
inductive IfMatchHeader where
  | any
  | items (items : List EntityTag)
deriving DecidableEq, Repr

/-- hyper header::IfNoneMatch. -/
inductive IfNoneMatchHeader where
  | any
  | items (items : List EntityTag)
deriving DecidableEq, Repr

/-- hyper header::IfRange.  Dates (HttpDate / SystemTime, second
granularity) are modelled as Nat timestamps. -/
inductive IfRangeHeader where
  | entityTag (t : EntityTag)
  | date (d : Nat)
deriving DecidableEq, Repr

/-- The request fields the serve functions consult. -/
structure Request where
  method : Method
  ifMatch : Option IfMatchHeader
  ifNoneMatch : Option IfNoneMatchHeader
  ifUnmodifiedSince : Option Nat
  ifModifiedSince : Option Nat
  ifRange : Option IfRangeHeader
  range : Option RangeHeader
deriving DecidableEq, Repr

/-- A request with no conditional or range headers. -/
def Request.bare (m : Method) : Request :=
  { method := m, ifMatch := Option.none, ifNoneMatch := Option.none,
    ifUnmodifiedSince := Option.none, ifModifiedSince := Option.none,
    ifRange := Option.none, range := Option.none }

/-- none_match (identical in serving.rs and lib.rs): true when the
request does not have an If-None-Match header matching the validator. -/
def none_match (etag : Option EntityTag) (req : Request) : Bool :=
  match req.ifNoneMatch with
  | Option.some IfNoneMatchHeader.any => false
  | Option.some (IfNoneMatchHeader.items items) =>
    match etag with
    | Option.some some_etag => !(items.any (fun item => item.weakEq some_etag))
    | Option.none => true
  | Option.none => true

/-- any_match (identical in serving.rs and lib.rs): true when the
request has no If-Match header or one matching the validator. -/
def any_match (etag : Option EntityTag) (req : Request) : Bool :=
  match req.ifMatch with
  | Option.none => true
  | Option.some IfMatchHeader.any => true
  | Option.some (IfMatchHeader.items items) =>
    match etag with
    | Option.some some_etag => items.any (fun item => item.strongEq some_etag)
    | Option.none => false

/-- The Entity trait of serving.rs as serve consumes it: a length, an
optional validator, an optional modification time, and the content
headers that add_headers would emit, kept abstract as their rendered
byte form (a String of ASCII bytes, e.g.
"content-type: application/octet-stream\r\n"). -/
structure Entity where
  len : Nat
  etag : Option EntityTag
  last_modified : Option Nat
  headersRendered : String
deriving DecidableEq, Repr

/-- Body selected by serve, with entity reads kept symbolic: entityRange r
stands for e.get_range(r); multipart rs for the lazily generated
multipart/byteranges stream over rs. -/
inductive BodySpec where
  | empty
  | messageAllowed
  | messagePrecondition
  | entityRange (r : ByteRange)
  | multipart (rs : List ByteRange)
deriving DecidableEq, Repr

/-- The response fields serve sets.  contentRange mirrors
ContentRangeSpec::Bytes as (optional satisfied pair, instance length). -/
structure Resp where
  status : Nat
  contentRange : Option (Option (Nat × Nat) × Nat)
  contentLength : Option Nat
  lastModified : Option Nat
  date : Option Nat
  etagHdr : Option EntityTag
  includeEntityHeaders : Bool
  contentType : Option String
  body : BodySpec
deriving DecidableEq, Repr

/-- A response with nothing set but a status and a body. -/
def Resp.plain (status : Nat) (body : BodySpec) : Resp :=
  { status := status, contentRange := Option.none, contentLength := Option.none,
    lastModified := Option.none, date := Option.none, etagHdr := Option.none,
    includeEntityHeaders := false, contentType := Option.none, body := body }

namespace Serving

/-- serving.rs serve, lines 131-139: the precondition_failed flag
(If-Match via any_match, then If-Unmodified-Since). -/
def preconditionFailed (e : Entity) (req : Request) : Bool :=
  if !(any_match e.etag req) then true
  else
    match e.last_modified, req.ifUnmodifiedSince with
    | Option.some m, Option.some since => m > since
    | _, _ => false

/-- serving.rs serve, lines 141-149: the not_modified flag
(If-None-Match via none_match, then If-Modified-Since). -/
def notModified (e : Entity) (req : Request) : Bool :=
  if !(none_match e.etag req) then true
  else
    match e.last_modified, req.ifModifiedSince with
    | Option.some m, Option.some since => m ≤ since
    | _, _ => false

/-- serving.rs serve, lines 154-177: the If-Range evaluation, returning
the possibly cleared range header and include_entity_headers_on_range.
A date-valued If-Range always clears the range header. -/
def rangeHdrAndInclude (e : Entity) (req : Request) : Option RangeHeader × Bool :=
  match req.ifRange with
  | Option.some (IfRangeHeader.entityTag if_etag) =>
    match e.etag with
    | Option.some some_etag =>
      if if_etag.strongEq some_etag then (req.range, false)
      else (Option.none, true)
    | Option.none => (Option.none, true)
  | Option.some (IfRangeHeader.date _) => (Option.none, true)
  | Option.none => (req.range, true)

/-- The multipart part-header block length sum of send_multipart is
defined further below (sendMultipartBodyLen); forward declarations for
the strings it concatenates. -/
def TRAILER : String := "\r\n--B--\r\n"

/-- serving.rs send_multipart, lines 290-296: each_part_headers is the
rendered entity headers (when included) followed by a blank line. -/
def eachPartHeaders (include_entity_headers : Bool) (e : Entity) : String :=
  (if include_entity_headers then e.headersRendered else "") ++ "\r\n"

/-- serving.rs send_multipart, lines 299-308: the per-part header block
written before the bytes of range r. -/
def partHeader (r : ByteRange) (len : Nat) (eph : String) : String :=
  "\r\n--B\r\nContent-Range: bytes " ++ toString r.start ++ "-"
    ++ toString (r.stop - 1) ++ "/" ++ toString len ++ "\r\n" ++ eph

/-- serving.rs send_multipart, lines 288-313: the body_len accumulation
(u64, hence the wrapping modulus on every addition). -/
def sendMultipartBodyLen (rs : List ByteRange) (len : Nat) (eph : String) : Nat :=
  (rs.foldl
      (fun acc r => (acc + ((partHeader r len eph).length + (r.stop - r.start))) % U64) 0
    + TRAILER.length) % U64

/-- serving.rs serve, line 228: the estimated multipart length
est_len = sum of 80 + r.end - r.start over the ranges, in u64.  For
ranges with start ≤ stop (the invariant parse_range_header guarantees)
the wrapping u64 fold equals this single outer modulus. -/
def estLen (rs : List ByteRange) : Nat :=
  ((rs.map (fun r => 80 + r.stop - r.start)).sum) % U64

/-- serving.rs send_multipart, lines 280-347, response part: status 206,
multipart Content-Type, precomputed Content-Length, and for GET the
lazily generated multipart body. -/
def sendMultipart (e : Entity) (req : Request) (base : Resp) (rs : List ByteRange)
    (len : Nat) (include_entity_headers : Bool) : Resp :=
  let eph := eachPartHeaders include_entity_headers e
  { base with
    status := 206
    contentLength := Option.some (sendMultipartBodyLen rs len eph)
    contentType := Option.some "multipart/byteranges; boundary=B"
    body := if req.method = Method.head then BodySpec.empty else BodySpec.multipart rs }

/-- serving.rs serve (lines 117-259).  The now argument is the value
SystemTime::now() takes when serve sets the Date header; a fresh
response never carries a Date header already, so d = now whenever the
entity has a modification time. -/
def serve (e : Entity) (req : Request) (now : Nat) : Resp :=
  if req.method ≠ Method.get ∧ req.method ≠ Method.head then
    Resp.plain 405 BodySpec.messageAllowed
  else
    let rhi := rangeHdrAndInclude e req
    let range_hdr := rhi.1
    let include_entity_headers_on_range := rhi.2
    let base : Resp :=
      { status := 200
        contentRange := Option.none
        contentLength := Option.none
        lastModified := e.last_modified.map (fun m => min m now)
        date := if e.last_modified.isSome then Option.some now else Option.none
        etagHdr := e.etag
        includeEntityHeaders := false
        contentType := Option.none
        body := BodySpec.empty }
    if preconditionFailed e req then
      { base with status := 412, body := BodySpec.messagePrecondition }
    else if notModified e req then
      { base with status := 304 }
    else
      let len := e.len
      match parse_range_header range_hdr len with
      | ResolvedRanges.none =>
        { base with
          includeEntityHeaders := true
          contentLength := Option.some len
          body := if req.method = Method.head then BodySpec.empty
                  else BodySpec.entityRange ⟨0, len⟩ }
      | ResolvedRanges.satisfiable rs =>
        if h : rs.length = 1 then
          let r := rs.head (by intro hn; rw [hn] at h; simp at h)
          { base with
            status := 206
            contentRange := Option.some (Option.some (r.start, r.stop - 1), len)
            includeEntityHeaders := include_entity_headers_on_range
            contentLength := Option.some (r.stop - r.start)
            body := if req.method = Method.head then BodySpec.empty
                    else BodySpec.entityRange r }
        else
          if estLen rs < len then
            sendMultipart e req base rs len include_entity_headers_on_range
          else
            { base with
              includeEntityHeaders := true
              contentLength := Option.some len
              body := if req.method = Method.head then BodySpec.empty
                      else BodySpec.entityRange ⟨0, len⟩ }
      | ResolvedRanges.notSatisfiable =>
        { base with
          status := 416
          contentRange := Option.some (Option.none, len) }

/-- Total multipart body length as the specification words it: the sum
over parts of the part header-block length plus the part byte count,
plus the trailer length.  This is the spec-side formula compared with
the source-side fold sendMultipartBodyLen. -/
def specMultipartTotalLen (rs : List ByteRange) (len : Nat) (eph : String) : Nat :=
  (rs.map (fun r => (partHeader r len eph).length + (r.stop - r.start))).sum
    + TRAILER.length

/-- A chunk of the multipart body stream: either a precomputed buffer
(part header block or trailer) or the lazily produced bytes of one
range, kept symbolic as the range itself. -/
inductive Chunk where
  | piece (s : String)
  | body (r : ByteRange)
deriving DecidableEq, Repr

/-- serving.rs send_multipart, lines 328-342: the unfold step function.
State s encodes part index i = s / 2 and sub-step odd = s % 2; the
stream ends (returns none) at state 2 * rs.length + 1. -/
def multipartChunkAt (rs : List ByteRange) (len : Nat) (eph : String) (s : Nat) :
    Option Chunk :=
  let i := s / 2
  if s % 2 = 1 ∧ i = rs.length then Option.none
  else if i = rs.length then Option.some (Chunk.piece TRAILER)
  else if s % 2 = 1 then (rs.get? i).map Chunk.body
  else (rs.get? i).map (fun r => Chunk.piece (partHeader r len eph))

/-- Unfolds multipartChunkAt from state s until it returns none; the
fuel argument (always sufficient below) makes the recursion structural. -/
def multipartChunksAux (rs : List ByteRange) (len : Nat) (eph : String) :
    Nat → Nat → List Chunk
  | 0, _ => []
  | fuel + 1, s =>
    match multipartChunkAt rs len eph s with
    | Option.none => []
    | Option.some c => c :: multipartChunksAux rs len eph fuel (s + 1)

/-- The full chunk sequence emitted by the multipart body stream,
starting from state 0. -/
def multipartChunks (rs : List ByteRange) (len : Nat) (eph : String) : List Chunk :=
  multipartChunksAux rs len eph (2 * rs.length + 2) 0

/-- The bytes a chunk contributes once the entity read for range r is
resolved through g (g r stands for the bytes e.get_range(r) yields). -/
def chunkStr (g : ByteRange → String) : Chunk → String
  | Chunk.piece s => s
  | Chunk.body r => g r

/-- Concatenation of the resolved chunk stream: the bytes the multipart
body puts on the wire. -/
def concatChunks (g : ByteRange → String) : List Chunk → String
  | [] => ""
  | c :: cs => chunkStr g c ++ concatChunks g cs

end Serving

namespace LibRs

/-- The Entity trait of lib.rs as its serve consumes it: length,
optional validator, and a required (non-optional) modification time. -/
structure LibEntity where
  len : Nat
  etag : Option EntityTag
  last_modified : Nat
deriving DecidableEq, Repr

/-- lib.rs serve, lines 188-213: the If-Range evaluation.  Unlike
serving.rs, a date-valued If-Range that equals the modification time
(compared at timespec granularity) keeps the range header and omits
entity headers. -/
def rangeHdrAndInclude (e : LibEntity) (req : Request) : Option RangeHeader × Bool :=
  match req.ifRange with
  | Option.some (IfRangeHeader.entityTag if_etag) =>
    match e.etag with
    | Option.some some_etag =>
      if if_etag.strongEq some_etag then (req.range, false)
      else (Option.none, true)
    | Option.none => (Option.none, true)
  | Option.some (IfRangeHeader.date if_date) =>
    if if_date ≠ e.last_modified then (Option.none, true)
    else (req.range, false)
  | Option.none => (req.range, true)

/-- lib.rs serve (lines 138-251).  The date field records the Date
header hyper attaches when the response is sent, taken here as the now
argument; serve itself never clamps Last-Modified to it. -/
def serve (e : LibEntity) (req : Request) (now : Nat) : Resp :=
  if req.method ≠ Method.get ∧ req.method ≠ Method.head then
    { Resp.plain 405 BodySpec.messageAllowed with
      date := Option.some now, contentType := Option.some "text/plain" }
  else
    let base : Resp :=
      { status := 200
        contentRange := Option.none
        contentLength := Option.none
        lastModified := Option.some e.last_modified
        date := Option.some now
        etagHdr := e.etag
        includeEntityHeaders := false
        contentType := Option.none
        body := BodySpec.empty }
    if match req.ifUnmodifiedSince with
       | Option.some since => decide (e.last_modified > since)
       | Option.none => false then
      { base with status := 412, body := BodySpec.messagePrecondition }
    else if !(any_match e.etag req) then
      { base with status := 412, body := BodySpec.messagePrecondition }
    else if !(none_match e.etag req) then
      { base with status := 304 }
    else if match req.ifModifiedSince with
            | Option.some since => decide (e.last_modified ≤ since)
            | Option.none => false then
      { base with status := 304 }
    else
      let rhi := rangeHdrAndInclude e req
      let range_hdr := rhi.1
      let include_entity_headers_on_range := rhi.2
      let len := e.len
      match parse_range_header range_hdr len with
      | ResolvedRanges.none =>
        { base with
          includeEntityHeaders := true
          contentLength := Option.some len
          body := if req.method = Method.get then BodySpec.entityRange ⟨0, len⟩
                  else BodySpec.empty }
      | ResolvedRanges.satisfiable rs =>
        if h : rs.length = 1 then
          let r := rs.head (by intro hn; rw [hn] at h; simp at h)
          { base with
            status := 206
            contentRange := Option.some (Option.some (r.start, r.stop - 1), len)
            includeEntityHeaders := include_entity_headers_on_range
            contentLength := Option.some (r.stop - r.start)
            body := if req.method = Method.get then BodySpec.entityRange r
                    else BodySpec.empty }
        else
          -- lib.rs lines 225-229: multi-part range headers are ignored
          -- and the whole entity is served instead.
          { base with
            includeEntityHeaders := true
            contentLength := Option.some len
            body := if req.method = Method.get then BodySpec.entityRange ⟨0, len⟩
                    else BodySpec.empty }
      | ResolvedRanges.notSatisfiable =>
        { base with
          status := 416
          contentRange := Option.some (Option.none, len) }

end LibRs

/-! Sanity checks of the two serve embeddings against the behaviors the
test suites in src assert. -/

/-- The five-byte entity of the lib.rs test suite. -/
def sanityLibEntity : LibRs.LibEntity :=
  { len := 5, etag := Option.none, last_modified := 773 }

/-- The 240-byte entity of tests/entity-acceptance.rs. -/
def sanityEntity : Entity :=
  { len := 240, etag := Option.none, last_modified := Option.some 773,
    headersRendered := "content-type: application/octet-stream\r\n" }

/-- The ranges a response makes serve read from the entity: the single
resolved or full range of entityRange, or each part range of a
multipart body. -/
def bodyRanges (resp : Resp) : List ByteRange :=
  match resp.body with
  | BodySpec.entityRange r => [r]
  | BodySpec.multipart rs => rs
  | _ => []

/-! Sanity checks: the resolver against the unit tests in src, and the
serve embeddings against the behaviors the test suites assert. -/

example :
    parse_range_header (Option.some (RangeHeader.bytes [ByteRangeSpec.fromTo 0 499])) 10000
      = ResolvedRanges.satisfiable [⟨0, 500⟩] := by decide

example :
    parse_range_header (Option.some (RangeHeader.bytes [ByteRangeSpec.last 500])) 10000
      = ResolvedRanges.satisfiable [⟨9500, 10000⟩] := by decide

example :
    parse_range_header (Option.some (RangeHeader.bytes
      [ByteRangeSpec.fromTo 0 0, ByteRangeSpec.last 1])) 10000
      = ResolvedRanges.satisfiable [⟨0, 1⟩, ⟨9999, 10000⟩] := by decide

example :
    parse_range_header (Option.some (RangeHeader.bytes [ByteRangeSpec.allFrom 10000])) 10000
      = ResolvedRanges.notSatisfiable := by decide

example : parse_range_header Option.none 10000 = ResolvedRanges.none := by decide

example :
    parse_range_header (Option.some (RangeHeader.bytes [ByteRangeSpec.fromTo 0 10000])) 500
      = ResolvedRanges.satisfiable [⟨0, 500⟩] := by decide

example :
    parse_range_header (Option.some (RangeHeader.bytes [ByteRangeSpec.last 1])) 0
      = ResolvedRanges.notSatisfiable := by decide

example :
    Serving.multipartChunks [⟨0, 2⟩, ⟨3, 5⟩] 240 "\r\n"
      = [Serving.Chunk.piece "\r\n--B\r\nContent-Range: bytes 0-1/240\r\n\r\n",
         Serving.Chunk.body ⟨0, 2⟩,
         Serving.Chunk.piece "\r\n--B\r\nContent-Range: bytes 3-4/240\r\n\r\n",
         Serving.Chunk.body ⟨3, 5⟩,
         Serving.Chunk.piece "\r\n--B--\r\n"] := by decide

-- The multipart body for ranges 0-1 and 3-4 of the 240-byte entity,
-- with the content-type header included per part, matches the exact
-- bytes asserted by tests/entity-acceptance.rs.
set_option maxRecDepth 4000 in
example :
    Serving.concatChunks
      (fun r => if r.start = 0 then "01" else "34")
      (Serving.multipartChunks [⟨0, 2⟩, ⟨3, 5⟩] 240
        (Serving.eachPartHeaders true sanityEntity))
      = "\r\n--B\r\nContent-Range: bytes 0-1/240\r\ncontent-type: application/octet-stream\r\n\r\n01\r\n--B\r\nContent-Range: bytes 3-4/240\r\ncontent-type: application/octet-stream\r\n\r\n34\r\n--B--\r\n" := by
  decide

example :
    (Serving.serve sanityEntity (Request.bare Method.get) 1000).status = 200
    ∧ (Serving.serve sanityEntity (Request.bare Method.get) 1000).body
        = BodySpec.entityRange ⟨0, 240⟩
    ∧ (Serving.serve sanityEntity (Request.bare Method.get) 1000).contentLength
        = Option.some 240 := by decide

-- Single range 1-3: 206 with Content-Range 1-3/240 and three bytes.
example :
    (Serving.serve sanityEntity
        { Request.bare Method.get with
          range := Option.some (RangeHeader.bytes [ByteRangeSpec.fromTo 1 3]) }
        1000)
      = { status := 206, contentRange := Option.some (Option.some (1, 3), 240),
          contentLength := Option.some 3, lastModified := Option.some 773,
          date := Option.some 1000, etagHdr := Option.none,
          includeEntityHeaders := true, contentType := Option.none,
          body := BodySpec.entityRange ⟨1, 4⟩ } := by decide

-- Two small ranges of the 240-byte entity: multipart 206 (acceptance test).
example :
    (Serving.serve sanityEntity
        { Request.bare Method.get with
          range := Option.some (RangeHeader.bytes
            [ByteRangeSpec.fromTo 0 1, ByteRangeSpec.fromTo 3 4]) }
        1000).status = 206
    ∧ (Serving.serve sanityEntity
        { Request.bare Method.get with
          range := Option.some (RangeHeader.bytes
            [ByteRangeSpec.fromTo 0 1, ByteRangeSpec.fromTo 3 4]) }
        1000).body = BodySpec.multipart [⟨0, 2⟩, ⟨3, 5⟩] := by decide

-- Two wide ranges 0-100 and 120-240: estimated length beats the entity
-- length, so 200 with the whole entity (acceptance test).
example :
    (Serving.serve sanityEntity
        { Request.bare Method.get with
          range := Option.some (RangeHeader.bytes
            [ByteRangeSpec.fromTo 0 100, ByteRangeSpec.fromTo 120 240]) }
        1000).status = 200 := by decide

-- lib.rs test: matching If-Range by date honors the range there.
example :
    (LibRs.serve sanityLibEntity
        { Request.bare Method.get with
          range := Option.some (RangeHeader.bytes [ByteRangeSpec.fromTo 1 3]),
          ifRange := Option.some (IfRangeHeader.date 773) }
        1000).status = 206 := by decide

-- acceptance test: matching If-Range by date does NOT honor the range
-- in serving.rs.
example :
    (Serving.serve sanityEntity
        { Request.bare Method.get with
          range := Option.some (RangeHeader.bytes [ByteRangeSpec.fromTo 1 3]),
          ifRange := Option.some (IfRangeHeader.date 773) }
        1000).status = 200 := by decide


/-- Every range resolveUnit pushes is within bounds: start ≤ stop ≤ len. -/
lemma resolveUnit_le (len : Nat) (u : ByteRangeSpec) (r : ByteRange)
    (h : resolveUnit len u = Option.some r) : r.start ≤ r.stop ∧ r.stop ≤ len := by
  cases u with
  | fromTo a b =>
    simp only [resolveUnit] at h
    split at h
    · exact absurd h (by simp)
    · next hlt =>
      obtain rfl : ByteRange.mk a (min ((b + 1) % U64) len) = r := by
        simpa using h
      exact ⟨Nat.le_of_lt (Nat.lt_of_not_ge hlt), Nat.min_le_right _ _⟩
  | allFrom a =>
    simp only [resolveUnit] at h
    split at h
    · exact absurd h (by simp)
    · next hlt =>
      obtain rfl : ByteRange.mk a len = r := by simpa using h
      exact ⟨Nat.le_of_lt (Nat.lt_of_not_ge hlt), Nat.le_refl _⟩
  | last n =>
    simp only [resolveUnit] at h
    split at h
    · exact absurd h (by simp)
    · obtain rfl : ByteRange.mk (len - n) len = r := by simpa using h
      exact ⟨Nat.sub_le _ _, Nat.le_refl _⟩

/-- Every range in a Satisfiable result is within bounds. -/
lemma parse_satisfiable_bounds (h : Option RangeHeader) (len : Nat)
    (rs : List ByteRange)
    (hp : parse_range_header h len = ResolvedRanges.satisfiable rs) :
    ∀ r ∈ rs, r.start ≤ r.stop ∧ r.stop ≤ len := by
  match h with
  | Option.none => simp [parse_range_header] at hp
  | Option.some RangeHeader.unregistered => simp [parse_range_header] at hp
  | Option.some (RangeHeader.bytes units) =>
    simp only [parse_range_header] at hp
    split at hp
    · exact absurd hp (by simp)
    · obtain rfl : units.filterMap (resolveUnit len) = rs := by
        injection hp
      intro r hr
      obtain ⟨u, _, hu⟩ := List.mem_filterMap.mp hr
      exact resolveUnit_le len u r hu

/-! Lemmas about the multipart chunk stream. -/

namespace Serving

lemma multipartChunkAt_shift (a : ByteRange) (t : List ByteRange) (len : Nat)
    (eph : String) (s : Nat) :
    multipartChunkAt (a :: t) len eph (s + 2) = multipartChunkAt t len eph s := by
  have h2 : (s + 2) / 2 = s / 2 + 1 := by omega
  have h3 : (s + 2) % 2 = s % 2 := by omega
  simp only [multipartChunkAt, List.length_cons, h2, h3, List.get?_cons_succ,
    Nat.add_right_cancel_iff]

lemma multipartChunksAux_shift (a : ByteRange) (t : List ByteRange) (len : Nat)
    (eph : String) :
    ∀ (fuel s : Nat),
      multipartChunksAux (a :: t) len eph fuel (s + 2)
        = multipartChunksAux t len eph fuel s := by
  intro fuel
  induction fuel with
  | zero => intro s; rfl
  | succ n ih =>
    intro s
    cases h : multipartChunkAt t len eph s with
    | none => simp [multipartChunksAux, multipartChunkAt_shift, h]
    | some c =>
      simp only [multipartChunksAux, multipartChunkAt_shift, h]
      have h31 : s + 2 + 1 = s + 1 + 2 := by omega
      rw [h31, ih]

lemma multipartChunksAux_succ (rs : List ByteRange) (len : Nat) (eph : String)
    (fuel s : Nat) :
    multipartChunksAux rs len eph (fuel + 1) s
      = match multipartChunkAt rs len eph s with
        | Option.none => []
        | Option.some c => c :: multipartChunksAux rs len eph fuel (s + 1) := rfl

lemma multipartChunksAux_succ_some (rs : List ByteRange) (len : Nat) (eph : String)
    (fuel s : Nat) (c : Chunk)
    (h : multipartChunkAt rs len eph s = Option.some c) :
    multipartChunksAux rs len eph (fuel + 1) s
      = c :: multipartChunksAux rs len eph fuel (s + 1) := by
  rw [multipartChunksAux_succ, h]

lemma multipartChunks_nil (len : Nat) (eph : String) :
    multipartChunks [] len eph = [Chunk.piece TRAILER] := rfl

lemma multipartChunks_cons (a : ByteRange) (t : List ByteRange) (len : Nat)
    (eph : String) :
    multipartChunks (a :: t) len eph
      = Chunk.piece (partHeader a len eph) :: Chunk.body a
          :: multipartChunks t len eph := by
  have c0 : multipartChunkAt (a :: t) len eph 0
      = Option.some (Chunk.piece (partHeader a len eph)) := by
    simp [multipartChunkAt]
  have c1 : multipartChunkAt (a :: t) len eph 1
      = Option.some (Chunk.body a) := by
    simp [multipartChunkAt]
  have hf : 2 * (a :: t).length + 2 = (2 * t.length + 3) + 1 := by
    simp [List.length_cons]; omega
  unfold multipartChunks
  rw [hf, multipartChunksAux_succ_some (a :: t) len eph _ _ _ c0]
  have h01 : (0 : Nat) + 1 = 1 := rfl
  have hf2 : 2 * t.length + 3 = (2 * t.length + 2) + 1 := rfl
  rw [h01, hf2, multipartChunksAux_succ_some (a :: t) len eph _ _ _ c1]
  have h11 : (1 : Nat) + 1 = 0 + 2 := rfl
  rw [h11, multipartChunksAux_shift]

lemma multipartChunks_join (rs : List ByteRange) (len : Nat) (eph : String) :
    multipartChunks rs len eph
      = (rs.map (fun r => [Chunk.piece (partHeader r len eph), Chunk.body r])).flatten
        ++ [Chunk.piece TRAILER] := by
  induction rs with
  | nil => simp [multipartChunks_nil]
  | cons a t ih => simp [multipartChunks_cons, ih]

lemma concatChunks_length (g : ByteRange → String) (cs : List Chunk) :
    (concatChunks g cs).length = (cs.map (fun c => (chunkStr g c).length)).sum := by
  induction cs with
  | nil => rfl
  | cons c cs ih => simp [concatChunks, String.length_append, ih]

lemma emitted_length (g : ByteRange → String) :
    ∀ (rs : List ByteRange) (len : Nat) (eph : String),
      (∀ r ∈ rs, (g r).length = r.stop - r.start) →
      (concatChunks g (multipartChunks rs len eph)).length
        = specMultipartTotalLen rs len eph := by
  intro rs
  induction rs with
  | nil =>
    intro len eph _
    simp [multipartChunks_nil, concatChunks, chunkStr, specMultipartTotalLen]
  | cons a t ih =>
    intro len eph hg
    have hga : (g a).length = a.stop - a.start := hg a (List.mem_cons_self a t)
    have hgt : ∀ r ∈ t, (g r).length = r.stop - r.start :=
      fun r hr => hg r (List.mem_cons_of_mem a hr)
    rw [multipartChunks_cons]
    simp only [concatChunks, chunkStr, String.length_append]
    rw [ih len eph hgt]
    simp only [specMultipartTotalLen, List.map_cons, List.sum_cons, hga]
    ring

lemma foldl_wrap (f : ByteRange → Nat) :
    ∀ (l : List ByteRange) (a : Nat), a < U64 →
      l.foldl (fun acc r => (acc + f r) % U64) a = (a + (l.map f).sum) % U64 := by
  have hU : 0 < U64 := by decide
  intro l
  induction l with
  | nil =>
    intro a ha
    simp [Nat.mod_eq_of_lt ha]
  | cons r t ih =>
    intro a ha
    simp only [List.foldl_cons, List.map_cons, List.sum_cons]
    rw [ih _ (Nat.mod_lt _ hU)]
    rw [Nat.mod_add_mod]
    ring_nf

lemma sendMultipartBodyLen_eq (rs : List ByteRange) (len : Nat) (eph : String) :
    sendMultipartBodyLen rs len eph = specMultipartTotalLen rs len eph % U64 := by
  have hU : 0 < U64 := by decide
  unfold sendMultipartBodyLen specMultipartTotalLen
  rw [foldl_wrap _ _ 0 hU]
  rw [Nat.mod_add_mod]
  simp

end Serving

/-! Claim theorems. -/

/-- C10: in the range resolver, the end of a from-to(a,b) unit is
computed as b + 1 before clamping; for b = 2 ^ 64 - 1 this wraps to 0
under u64 (mod 2 ^ 64) arithmetic, so for every start a and every
entity length the unit is dropped as unsatisfiable rather than serving
the tail of the entity. -/
theorem C10_fromTo_u64Max_dropped :
    ∀ (a len : Nat),
      resolveUnit len (ByteRangeSpec.fromTo a (2 ^ 64 - 1)) = Option.none
      ∧ parse_range_header
          (Option.some (RangeHeader.bytes [ByteRangeSpec.fromTo a (2 ^ 64 - 1)])) len
          = ResolvedRanges.notSatisfiable := by
  intro a len
  have hwrap : (18446744073709551616 : Nat) % U64 = 0 := by decide
  have hunit : resolveUnit len (ByteRangeSpec.fromTo a (2 ^ 64 - 1)) = Option.none := by
    simp [resolveUnit, hwrap]
  refine ⟨hunit, ?_⟩
  simp [parse_range_header, resolveUnit, hwrap]

/-- C6: for every entity length and every suffix(n) unit, the resolver
produces [length - n, length) exactly when n < length and drops the
unit when n ≥ length; in particular a suffix exactly equal to the
entity length is dropped rather than covering the whole entity. -/
theorem C6_suffix_boundary :
    ∀ (n len : Nat),
      parse_range_header (Option.some (RangeHeader.bytes [ByteRangeSpec.last n])) len
        = (if n < len
           then ResolvedRanges.satisfiable [⟨len - n, len⟩]
           else ResolvedRanges.notSatisfiable)
      ∧ parse_range_header
          (Option.some (RangeHeader.bytes [ByteRangeSpec.last len])) len
          = ResolvedRanges.notSatisfiable := by
  intro n len
  constructor
  · by_cases h : n < len
    · simp [parse_range_header, resolveUnit, Nat.not_le_of_lt h, h]
    · simp [parse_range_header, resolveUnit, Nat.le_of_not_lt h, h]
  · simp [parse_range_header, resolveUnit]

/-- C5: a Range header present but with every unit dropped yields
NotSatisfiable, distinct from the None outcome of an absent header;
and when serve reaches the range step with a NotSatisfiable result it
returns 416 with Content-Range bytes star-slash-length, no
Content-Length, and an empty body. -/
theorem C5_unsatisfiable_distinct_416 :
    (∀ (units : List ByteRangeSpec) (len : Nat),
       (∀ u ∈ units, resolveUnit len u = Option.none) →
       parse_range_header (Option.some (RangeHeader.bytes units)) len
         = ResolvedRanges.notSatisfiable)
    ∧ (∀ len : Nat, parse_range_header Option.none len = ResolvedRanges.none)
    ∧ ResolvedRanges.notSatisfiable ≠ ResolvedRanges.none
    ∧ (∀ (e : Entity) (req : Request) (now : Nat),
        (req.method = Method.get ∨ req.method = Method.head) →
        Serving.preconditionFailed e req = false →
        Serving.notModified e req = false →
        parse_range_header (Serving.rangeHdrAndInclude e req).1 e.len
          = ResolvedRanges.notSatisfiable →
        (Serving.serve e req now).status = 416
        ∧ (Serving.serve e req now).contentRange
            = Option.some (Option.none, e.len)
        ∧ (Serving.serve e req now).body = BodySpec.empty
        ∧ (Serving.serve e req now).contentLength = Option.none) := by
  refine ⟨?_, ?_, by simp, ?_⟩
  · intro units len hall
    have hnil : units.filterMap (resolveUnit len) = [] :=
      List.filterMap_eq_nil_iff.mpr hall
    simp [parse_range_header, hnil]
  · intro len
    simp [parse_range_header]
  · intro e req now hm hpf hnm hp
    rcases hm with hm | hm <;>
      simp [Serving.serve, hm, hpf, hnm, hp]

/-- C5 witness: a request whose only range unit starts past the entity
end (all-from(500) against length 5, the lib.rs test case) produces
NotSatisfiable, and serve answers it with 416 and an empty body. -/
theorem C5_witness :
    parse_range_header
        (Option.some (RangeHeader.bytes [ByteRangeSpec.allFrom 500])) 5
      = ResolvedRanges.notSatisfiable
    ∧ ((Serving.serve
          { len := 5, etag := Option.none, last_modified := Option.some 773,
            headersRendered := "" }
          { Request.bare Method.get with
            range := Option.some (RangeHeader.bytes [ByteRangeSpec.allFrom 500]) }
          1000).status = 416
       ∧ (Serving.serve
          { len := 5, etag := Option.none, last_modified := Option.some 773,
            headersRendered := "" }
          { Request.bare Method.get with
            range := Option.some (RangeHeader.bytes [ByteRangeSpec.allFrom 500]) }
          1000).contentRange = Option.some (Option.none, 5)
       ∧ (Serving.serve
          { len := 5, etag := Option.none, last_modified := Option.some 773,
            headersRendered := "" }
          { Request.bare Method.get with
            range := Option.some (RangeHeader.bytes [ByteRangeSpec.allFrom 500]) }
          1000).body = BodySpec.empty
       ∧ (Serving.serve
          { len := 5, etag := Option.none, last_modified := Option.some 773,
            headersRendered := "" }
          { Request.bare Method.get with
            range := Option.some (RangeHeader.bytes [ByteRangeSpec.allFrom 500]) }
          1000).contentLength = Option.none) := by
  refine ⟨C5_unsatisfiable_distinct_416.1 [ByteRangeSpec.allFrom 500] 5 (by decide), ?_⟩
  exact C5_unsatisfiable_distinct_416.2.2.2
    { len := 5, etag := Option.none, last_modified := Option.some 773,
      headersRendered := "" }
    { Request.bare Method.get with
      range := Option.some (RangeHeader.bytes [ByteRangeSpec.allFrom 500]) }
    1000 (Or.inl rfl) (by decide) (by decide) (by decide)

/-- C4 counterexample: the claim reads the end bound min(b + 1, length)
in exact arithmetic.  At a = 0, b = 2 ^ 64 - 1, length = 1 the claim
condition a < min(b + 1, length) holds (min is 1), so the claim
promises the interval [0, 1); the code computes b + 1 in wrapping u64
arithmetic, gets end = 0, and drops the unit as unsatisfiable. -/
theorem C4_counterexample :
    0 < min (2 ^ 64 - 1 + 1) 1
    ∧ parse_range_header
        (Option.some (RangeHeader.bytes [ByteRangeSpec.fromTo 0 (2 ^ 64 - 1)])) 1
        = ResolvedRanges.notSatisfiable := by decide

/-- C4 amended: for every from-to(a,b) unit whose incremented end does
not overflow u64 (b + 1 < 2 ^ 64), the resolver produces
[a, min(b + 1, length)) exactly when a < min(b + 1, length) and drops
the unit otherwise; the overflowing case b = 2 ^ 64 - 1 always drops
the unit. -/
theorem C4_fromTo_clamped (a b len : Nat) (hb : b + 1 < U64) :
    parse_range_header (Option.some (RangeHeader.bytes [ByteRangeSpec.fromTo a b])) len
      = (if a < min (b + 1) len
         then ResolvedRanges.satisfiable [⟨a, min (b + 1) len⟩]
         else ResolvedRanges.notSatisfiable) := by
  have hmod : (b + 1) % U64 = b + 1 := Nat.mod_eq_of_lt hb
  by_cases h : a < min (b + 1) len
  · simp [parse_range_header, resolveUnit, hmod, Nat.not_le_of_lt h, h]
  · simp [parse_range_header, resolveUnit, hmod, Nat.le_of_not_lt h, h]

/-- C7: for every multipart response over n satisfiable intervals, the
Content-Length computed before any body byte is produced — the fold
sendMultipartBodyLen, a function of the intervals and header strings
only, never of the entity byte reader — equals the sum over parts of
(part header-block length + part byte count) plus the trailer length
(modulo the u64 width of the source counter); the emitted chunk
sequence is exactly the interleaving header-chunk(i), body-chunk(i)
for i in 0..n followed by the trailer chunk; and whenever the entity
yields exactly (end - start) bytes per requested interval the emitted
byte count equals that sum, hence equals the declared Content-Length
whenever the total fits in u64. -/
theorem C7_multipart_length_interleaving :
    ∀ (rs : List ByteRange) (len : Nat) (eph : String),
      Serving.multipartChunks rs len eph
        = (rs.map (fun r =>
            [Serving.Chunk.piece (Serving.partHeader r len eph),
             Serving.Chunk.body r])).flatten
          ++ [Serving.Chunk.piece Serving.TRAILER]
      ∧ Serving.sendMultipartBodyLen rs len eph
          = Serving.specMultipartTotalLen rs len eph % U64
      ∧ ∀ (g : ByteRange → String),
          (∀ r ∈ rs, (g r).length = r.stop - r.start) →
          (Serving.concatChunks g (Serving.multipartChunks rs len eph)).length
            = Serving.specMultipartTotalLen rs len eph
          ∧ (Serving.specMultipartTotalLen rs len eph < U64 →
             (Serving.concatChunks g (Serving.multipartChunks rs len eph)).length
               = Serving.sendMultipartBodyLen rs len eph) := by
  intro rs len eph
  refine ⟨Serving.multipartChunks_join rs len eph,
          Serving.sendMultipartBodyLen_eq rs len eph, ?_⟩
  intro g hg
  have hlen := Serving.emitted_length g rs len eph hg
  refine ⟨hlen, fun hfit => ?_⟩
  rw [hlen, Serving.sendMultipartBodyLen_eq, Nat.mod_eq_of_lt hfit]

/-- C7 witness: the theorem at the acceptance-test response — parts
0-1 and 3-4 of a 240-byte entity with a bare CRLF part header tail;
any reader returning exactly the requested byte counts makes the
emitted byte count equal the declared Content-Length. -/
theorem C7_witness :
    (∀ r ∈ ([⟨0, 2⟩, ⟨3, 5⟩] : List ByteRange),
       ((fun r => String.mk (List.replicate (r.stop - r.start) 'x')) r).length
         = r.stop - r.start)
    ∧ (Serving.concatChunks
        (fun r => String.mk (List.replicate (r.stop - r.start) 'x'))
        (Serving.multipartChunks [⟨0, 2⟩, ⟨3, 5⟩] 240 "\r\n")).length
        = Serving.specMultipartTotalLen [⟨0, 2⟩, ⟨3, 5⟩] 240 "\r\n"
    ∧ (Serving.concatChunks
        (fun r => String.mk (List.replicate (r.stop - r.start) 'x'))
        (Serving.multipartChunks [⟨0, 2⟩, ⟨3, 5⟩] 240 "\r\n")).length
        = Serving.sendMultipartBodyLen [⟨0, 2⟩, ⟨3, 5⟩] 240 "\r\n" := by
  have h := (C7_multipart_length_interleaving [⟨0, 2⟩, ⟨3, 5⟩] 240 "\r\n").2.2
    (fun r => String.mk (List.replicate (r.stop - r.start) 'x')) (by decide)
  exact ⟨by decide, h.1, h.2 (by decide)⟩

/-- C1: If-Match absent or with value star always passes the any_match
check; and whenever the If-Match check fails (only tags that do not
strong-compare equal to the validator), both serve implementations
return status 412 — with no condition on If-None-Match, so the 412
outcome takes priority over any 304 the If-None-Match header would
otherwise have produced.  Stated for GET/HEAD requests; other methods
are rejected with 405 before conditionals are evaluated. -/
theorem C1_ifMatch_412_priority :
    (∀ (etag : Option EntityTag) (req : Request),
       (req.ifMatch = Option.none ∨ req.ifMatch = Option.some IfMatchHeader.any) →
       any_match etag req = true)
    ∧ (∀ (e : Entity) (req : Request) (now : Nat),
         (req.method = Method.get ∨ req.method = Method.head) →
         any_match e.etag req = false →
         (Serving.serve e req now).status = 412)
    ∧ (∀ (e : LibRs.LibEntity) (req : Request) (now : Nat),
         (req.method = Method.get ∨ req.method = Method.head) →
         any_match e.etag req = false →
         (LibRs.serve e req now).status = 412) := by
  refine ⟨?_, ?_, ?_⟩
  · intro etag req h
    rcases h with h | h <;> simp [any_match, h]
  · intro e req now hm ha
    have hpf : Serving.preconditionFailed e req = true := by
      simp [Serving.preconditionFailed, ha]
    rcases hm with hm | hm <;> simp [Serving.serve, hm, hpf]
  · intro e req now hm ha
    rcases hm with hm | hm <;>
      · simp only [LibRs.serve, hm]
        split
        · next h => simp at h
        · split
          · simp
          · simp [ha]

/-- C1 witness: a GET request whose If-Match lists only a tag that does
not strong-match the validator gets 412 from both implementations,
even though its If-None-Match header weak-matches the validator and
would by itself have produced 304. -/
theorem C1_witness :
    (({ Request.bare Method.get with
        ifMatch := Option.some (IfMatchHeader.items [⟨false, "bar"⟩]),
        ifNoneMatch := Option.some (IfNoneMatchHeader.items [⟨false, "foo"⟩]) }
          : Request).method = Method.get
      ∨ ({ Request.bare Method.get with
           ifMatch := Option.some (IfMatchHeader.items [⟨false, "bar"⟩]),
           ifNoneMatch := Option.some (IfNoneMatchHeader.items [⟨false, "foo"⟩]) }
             : Request).method = Method.head)
    ∧ any_match (Option.some ⟨false, "foo"⟩)
        { Request.bare Method.get with
          ifMatch := Option.some (IfMatchHeader.items [⟨false, "bar"⟩]),
          ifNoneMatch := Option.some (IfNoneMatchHeader.items [⟨false, "foo"⟩]) } = false
    ∧ (Serving.serve
        { len := 5, etag := Option.some ⟨false, "foo"⟩,
          last_modified := Option.some 773, headersRendered := "" }
        { Request.bare Method.get with
          ifMatch := Option.some (IfMatchHeader.items [⟨false, "bar"⟩]),
          ifNoneMatch := Option.some (IfNoneMatchHeader.items [⟨false, "foo"⟩]) }
        1000).status = 412
    ∧ (LibRs.serve
        { len := 5, etag := Option.some ⟨false, "foo"⟩, last_modified := 773 }
        { Request.bare Method.get with
          ifMatch := Option.some (IfMatchHeader.items [⟨false, "bar"⟩]),
          ifNoneMatch := Option.some (IfNoneMatchHeader.items [⟨false, "foo"⟩]) }
        1000).status = 412 := by
  refine ⟨Or.inl rfl, by decide, ?_, ?_⟩
  · exact C1_ifMatch_412_priority.2.1
      { len := 5, etag := Option.some ⟨false, "foo"⟩,
        last_modified := Option.some 773, headersRendered := "" }
      _ 1000 (Or.inl rfl) (by decide)
  · exact C1_ifMatch_412_priority.2.2
      { len := 5, etag := Option.some ⟨false, "foo"⟩, last_modified := 773 }
      _ 1000 (Or.inl rfl) (by decide)

/-- C2 counterexample: the claim quantifies over both serve
implementations in the source, and the historical lib.rs serve DOES
honor the range when the If-Range date equals the modification time:
a GET for bytes 1-3 of a five-byte entity with If-Range: date 773
equal to the modification time gets 206 with the three-byte range, not
the claimed 200 with the full entity (lib.rs lines 202-211, asserted
by the lib.rs test "matching If-Range by date honors the range"). -/
theorem C2_counterexample :
    (LibRs.serve { len := 5, etag := Option.none, last_modified := 773 }
        { Request.bare Method.get with
          range := Option.some (RangeHeader.bytes [ByteRangeSpec.fromTo 1 3]),
          ifRange := Option.some (IfRangeHeader.date 773) }
        1000).status = 206
    ∧ (LibRs.serve { len := 5, etag := Option.none, last_modified := 773 }
        { Request.bare Method.get with
          range := Option.some (RangeHeader.bytes [ByteRangeSpec.fromTo 1 3]),
          ifRange := Option.some (IfRangeHeader.date 773) }
        1000).body = BodySpec.entityRange ⟨1, 4⟩
    ∧ (LibRs.serve { len := 5, etag := Option.none, last_modified := 773 }
        { Request.bare Method.get with
          range := Option.some (RangeHeader.bytes [ByteRangeSpec.fromTo 1 3]),
          ifRange := Option.some (IfRangeHeader.date 773) }
        1000).status ≠ 200 := by decide

/-- C2 amended: in the current implementation (serving.rs, the one the
acceptance tests exercise), a GET request whose If-Range header
carries a date never has its Range header honored — the range header
is cleared regardless of whether the date equals the modification
time, and (when no other conditional header intervenes) serve returns
200 with the full entity body and the entity content headers; the
historical lib.rs serve instead honors the range exactly when the date
equals the modification time, as the counterexample shows. -/
theorem C2_dateIfRange_notHonored (e : Entity) (req : Request) (now d : Nat)
    (hm : req.method = Method.get)
    (hir : req.ifRange = Option.some (IfRangeHeader.date d))
    (hpf : Serving.preconditionFailed e req = false)
    (hnm : Serving.notModified e req = false) :
    (Serving.serve e req now).status = 200
    ∧ (Serving.serve e req now).body = BodySpec.entityRange ⟨0, e.len⟩
    ∧ (Serving.serve e req now).contentLength = Option.some e.len
    ∧ (Serving.serve e req now).includeEntityHeaders = true
    ∧ (Serving.serve e req now).contentRange = Option.none := by
  have hrhi : Serving.rangeHdrAndInclude e req = (Option.none, true) := by
    simp [Serving.rangeHdrAndInclude, hir]
  simp [Serving.serve, hm, hpf, hnm, hrhi, parse_range_header]

/-- C2 witness: the amended theorem at the acceptance-test scenario —
GET bytes 1-3 with If-Range date equal to the modification time gets
the full 240-byte entity with 200 from serving.rs serve. -/
theorem C2_witness :
    Serving.preconditionFailed
        { len := 240, etag := Option.none, last_modified := Option.some 773,
          headersRendered := "" }
        { Request.bare Method.get with
          range := Option.some (RangeHeader.bytes [ByteRangeSpec.fromTo 1 3]),
          ifRange := Option.some (IfRangeHeader.date 773) } = false
    ∧ ((Serving.serve
          { len := 240, etag := Option.none, last_modified := Option.some 773,
            headersRendered := "" }
          { Request.bare Method.get with
            range := Option.some (RangeHeader.bytes [ByteRangeSpec.fromTo 1 3]),
            ifRange := Option.some (IfRangeHeader.date 773) }
          1000).status = 200
       ∧ (Serving.serve
          { len := 240, etag := Option.none, last_modified := Option.some 773,
            headersRendered := "" }
          { Request.bare Method.get with
            range := Option.some (RangeHeader.bytes [ByteRangeSpec.fromTo 1 3]),
            ifRange := Option.some (IfRangeHeader.date 773) }
          1000).body = BodySpec.entityRange ⟨0, 240⟩) := by
  refine ⟨by decide, ?_⟩
  have h := C2_dateIfRange_notHonored
    { len := 240, etag := Option.none, last_modified := Option.some 773,
      headersRendered := "" }
    { Request.bare Method.get with
      range := Option.some (RangeHeader.bytes [ByteRangeSpec.fromTo 1 3]),
      ifRange := Option.some (IfRangeHeader.date 773) }
    1000 773 rfl rfl (by decide) (by decide)
  exact ⟨h.1, h.2.1⟩

/-- C3 counterexample: the claim quantifies over both serve
implementations in the source, and the historical lib.rs serve never
produces multipart responses: for GET bytes 0-9 and 230-239 of a
240-byte entity the estimate 80 + 10 + 80 + 10 = 180 is below the
entity length 240, so the claim demands a 206 multipart response, but
lib.rs serve (lines 225-229) ignores multiple ranges and returns 200
with the whole entity. -/
theorem C3_counterexample :
    parse_range_header
        (Option.some (RangeHeader.bytes
          [ByteRangeSpec.fromTo 0 9, ByteRangeSpec.fromTo 230 239])) 240
      = ResolvedRanges.satisfiable [⟨0, 10⟩, ⟨230, 240⟩]
    ∧ Serving.estLen [⟨0, 10⟩, ⟨230, 240⟩] = 180
    ∧ (180 : Nat) < 240
    ∧ (LibRs.serve { len := 240, etag := Option.none, last_modified := 773 }
        { Request.bare Method.get with
          range := Option.some (RangeHeader.bytes
            [ByteRangeSpec.fromTo 0 9, ByteRangeSpec.fromTo 230 239]) }
        1000).status = 200
    ∧ (LibRs.serve { len := 240, etag := Option.none, last_modified := 773 }
        { Request.bare Method.get with
          range := Option.some (RangeHeader.bytes
            [ByteRangeSpec.fromTo 0 9, ByteRangeSpec.fromTo 230 239]) }
        1000).body = BodySpec.entityRange ⟨0, 240⟩
    ∧ (LibRs.serve { len := 240, etag := Option.none, last_modified := 773 }
        { Request.bare Method.get with
          range := Option.some (RangeHeader.bytes
            [ByteRangeSpec.fromTo 0 9, ByteRangeSpec.fromTo 230 239]) }
        1000).status ≠ 206 := by decide

/-- C3 amended: in the current implementation (serving.rs), for every
honored Range header resolving to two or more satisfiable intervals
serve computes the estimated multipart length as the u64 sum over
intervals of 80 + interval length; if that estimate is at least the
entity length it returns 200 carrying the whole entity, and otherwise
206 multipart/byteranges; the historical lib.rs serve instead ignores
every multi-interval range and always serves the whole entity with
200, as the counterexample shows. -/
theorem C3_multipart_estimate (e : Entity) (req : Request) (now : Nat)
    (rs : List ByteRange)
    (hm : req.method = Method.get)
    (hpf : Serving.preconditionFailed e req = false)
    (hnm : Serving.notModified e req = false)
    (hp : parse_range_header (Serving.rangeHdrAndInclude e req).1 e.len
            = ResolvedRanges.satisfiable rs)
    (h2 : 2 ≤ rs.length) :
    (Serving.estLen rs < e.len →
       (Serving.serve e req now).status = 206
       ∧ (Serving.serve e req now).body = BodySpec.multipart rs
       ∧ (Serving.serve e req now).contentType
           = Option.some "multipart/byteranges; boundary=B"
       ∧ (Serving.serve e req now).contentLength
           = Option.some (Serving.sendMultipartBodyLen rs e.len
               (Serving.eachPartHeaders (Serving.rangeHdrAndInclude e req).2 e)))
    ∧ (e.len ≤ Serving.estLen rs →
       (Serving.serve e req now).status = 200
       ∧ (Serving.serve e req now).body = BodySpec.entityRange ⟨0, e.len⟩
       ∧ (Serving.serve e req now).contentLength = Option.some e.len
       ∧ (Serving.serve e req now).contentType = Option.none) := by
  have h1 : ¬rs.length = 1 := by omega
  constructor
  · intro hlt
    simp [Serving.serve, Serving.sendMultipart, hm, hpf, hnm, hp, h1, hlt]
  · intro hge
    have hnlt : ¬Serving.estLen rs < e.len := Nat.not_lt.mpr hge
    simp [Serving.serve, hm, hpf, hnm, hp, h1, hnlt]

/-- C3 witness: the amended theorem at the acceptance-test scenario —
two ten-byte ranges of the 240-byte entity give 206 multipart from
serving.rs serve since the 180-byte estimate is below 240. -/
theorem C3_witness :
    parse_range_header
        (Serving.rangeHdrAndInclude
          { len := 240, etag := Option.none, last_modified := Option.some 773,
            headersRendered := "" }
          { Request.bare Method.get with
            range := Option.some (RangeHeader.bytes
              [ByteRangeSpec.fromTo 0 9, ByteRangeSpec.fromTo 230 239]) }).1 240
      = ResolvedRanges.satisfiable [⟨0, 10⟩, ⟨230, 240⟩]
    ∧ Serving.estLen [⟨0, 10⟩, ⟨230, 240⟩] < 240
    ∧ ((Serving.serve
          { len := 240, etag := Option.none, last_modified := Option.some 773,
            headersRendered := "" }
          { Request.bare Method.get with
            range := Option.some (RangeHeader.bytes
              [ByteRangeSpec.fromTo 0 9, ByteRangeSpec.fromTo 230 239]) }
          1000).status = 206
       ∧ (Serving.serve
          { len := 240, etag := Option.none, last_modified := Option.some 773,
            headersRendered := "" }
          { Request.bare Method.get with
            range := Option.some (RangeHeader.bytes
              [ByteRangeSpec.fromTo 0 9, ByteRangeSpec.fromTo 230 239]) }
          1000).body = BodySpec.multipart [⟨0, 10⟩, ⟨230, 240⟩]) := by
  refine ⟨by decide, by decide, ?_⟩
  have h := (C3_multipart_estimate
    { len := 240, etag := Option.none, last_modified := Option.some 773,
      headersRendered := "" }
    { Request.bare Method.get with
      range := Option.some (RangeHeader.bytes
        [ByteRangeSpec.fromTo 0 9, ByteRangeSpec.fromTo 230 239]) }
    1000 [⟨0, 10⟩, ⟨230, 240⟩] rfl (by decide) (by decide) (by decide)
    (by decide)).1 (by decide)
  exact ⟨h.1, h.2.1⟩

/-- C9 counterexample: a suffix(0) unit against length 5 resolves to
the EMPTY interval [5, 5): parse_range_header returns Satisfiable with
a member whose start equals its end, refuting the claimed strict
inequality r.start < r.end, and serve passes that empty range, whose
start equals the entity length, to the entity reader. -/
theorem C9_counterexample :
    parse_range_header (Option.some (RangeHeader.bytes [ByteRangeSpec.last 0])) 5
      = ResolvedRanges.satisfiable [⟨5, 5⟩]
    ∧ ¬((5 : Nat) < 5)
    ∧ bodyRanges
        (Serving.serve
          { len := 5, etag := Option.none, last_modified := Option.none,
            headersRendered := "" }
          { Request.bare Method.get with
            range := Option.some (RangeHeader.bytes [ByteRangeSpec.last 0]) }
          1000)
        = [⟨5, 5⟩] := by decide

/-- C9 amended: every interval of a Satisfiable result satisfies
0 ≤ start ≤ end ≤ len — within bounds but possibly empty, since a
suffix(0) unit resolves to [len, len); every unit other than suffix(0)
does yield a non-empty interval; in the suffix branch n < len holds
whenever a range is pushed, so len - n never underflows; and every
range serve passes to the entity reader (single resolved range,
multipart part range, or the full range) satisfies start ≤ end ≤ len,
so reads never extend beyond the entity. -/
theorem C9_ranges_within_bounds :
    (∀ (h : Option RangeHeader) (len : Nat) (rs : List ByteRange),
       parse_range_header h len = ResolvedRanges.satisfiable rs →
       ∀ r ∈ rs, r.start ≤ r.stop ∧ r.stop ≤ len)
    ∧ (∀ (len : Nat) (u : ByteRangeSpec) (r : ByteRange),
        resolveUnit len u = Option.some r →
        u ≠ ByteRangeSpec.last 0 → r.start < r.stop)
    ∧ (∀ (len n : Nat) (r : ByteRange),
        resolveUnit len (ByteRangeSpec.last n) = Option.some r → n < len)
    ∧ (∀ (e : Entity) (req : Request) (now : Nat),
        ∀ r ∈ bodyRanges (Serving.serve e req now),
          r.start ≤ r.stop ∧ r.stop ≤ e.len) := by
  refine ⟨parse_satisfiable_bounds, ?_, ?_, ?_⟩
  · intro len u r h hu
    cases u with
    | fromTo a b =>
      simp only [resolveUnit] at h
      split at h
      · exact absurd h (by simp)
      · next hlt =>
        obtain rfl : ByteRange.mk a (min ((b + 1) % U64) len) = r := by simpa using h
        exact Nat.lt_of_not_ge hlt
    | allFrom a =>
      simp only [resolveUnit] at h
      split at h
      · exact absurd h (by simp)
      · next hlt =>
        obtain rfl : ByteRange.mk a len = r := by simpa using h
        exact Nat.lt_of_not_ge hlt
    | last n =>
      simp only [resolveUnit] at h
      split at h
      · exact absurd h (by simp)
      · next hlt =>
        obtain rfl : ByteRange.mk (len - n) len = r := by simpa using h
        have hn : 0 < n := by
          rcases Nat.eq_zero_or_pos n with hz | hz
          · exact absurd (hz ▸ rfl) hu
          · exact hz
        have hlen : n < len := Nat.lt_of_not_ge hlt
        exact Nat.sub_lt (Nat.lt_of_lt_of_le hn (Nat.le_of_lt hlen)) hn
  · intro len n r h
    simp only [resolveUnit] at h
    split at h
    · exact absurd h (by simp)
    · next hlt => exact Nat.lt_of_not_ge hlt
  · intro e req now r hr
    simp only [Serving.serve] at hr
    split at hr
    · simp [bodyRanges, Resp.plain] at hr
    · split at hr
      · simp [bodyRanges] at hr
      · split at hr
        · simp [bodyRanges] at hr
        · split at hr
          · -- ResolvedRanges.none: the full range [0, len)
            simp only [bodyRanges] at hr
            by_cases hh : req.method = Method.head
            · simp [hh] at hr
            · simp only [hh, if_neg, ite_false, List.mem_singleton] at hr
              subst hr
              exact ⟨Nat.zero_le _, Nat.le_refl _⟩
          · -- Satisfiable
            next rs heq =>
            split at hr
            · simp only [bodyRanges] at hr
              by_cases hh : req.method = Method.head
              · simp [hh] at hr
              · simp only [hh, if_neg, ite_false, List.mem_singleton] at hr
                subst hr
                exact parse_satisfiable_bounds _ _ _ heq _ (List.head_mem _)
            · split at hr
              · -- multipart
                simp only [Serving.sendMultipart, bodyRanges] at hr
                by_cases hh : req.method = Method.head
                · simp [hh] at hr
                · simp only [hh, if_neg, ite_false] at hr
                  exact parse_satisfiable_bounds _ _ _ heq _ hr
              · -- estimate too large: the full range
                simp only [bodyRanges] at hr
                by_cases hh : req.method = Method.head
                · simp [hh] at hr
                · simp only [hh, if_neg, ite_false, List.mem_singleton] at hr
                  subst hr
                  exact ⟨Nat.zero_le _, Nat.le_refl _⟩
          · -- NotSatisfiable: 416 with no body
            simp [bodyRanges] at hr

/-- C9 witness: the bounds theorem applied to the RFC example
from-to(0, 499) against length 10000 and to a served single range. -/
theorem C9_witness :
    parse_range_header
        (Option.some (RangeHeader.bytes [ByteRangeSpec.fromTo 0 499])) 10000
      = ResolvedRanges.satisfiable [⟨0, 500⟩]
    ∧ ((0 : Nat) ≤ 500 ∧ (500 : Nat) ≤ 10000) := by
  refine ⟨by decide, ?_⟩
  exact C9_ranges_within_bounds.1
    (Option.some (RangeHeader.bytes [ByteRangeSpec.fromTo 0 499])) 10000
    [⟨0, 500⟩] (by decide) ⟨0, 500⟩ (by decide)

/-- C8 counterexample: the claim quantifies over both serve
implementations in the source, and the historical lib.rs serve does
not clamp: it emits Last-Modified equal to the modification time
unconditionally (lib.rs line 151), so with modification time 100 and a
response Date of 50 the emitted Last-Modified exceeds the Date and is
not min(modification time, Date) = 50. -/
theorem C8_counterexample :
    (LibRs.serve { len := 5, etag := Option.none, last_modified := 100 }
        (Request.bare Method.get) 50).lastModified = Option.some 100
    ∧ (LibRs.serve { len := 5, etag := Option.none, last_modified := 100 }
        (Request.bare Method.get) 50).date = Option.some 50
    ∧ ¬((100 : Nat) ≤ 50)
    ∧ (LibRs.serve { len := 5, etag := Option.none, last_modified := 100 }
        (Request.bare Method.get) 50).lastModified
        ≠ Option.some (min 100 50) := by decide

/-- C8 amended: in the current implementation (serving.rs), every
GET/HEAD response for an entity with a known modification time m
carries Last-Modified = min(m, Date) and Date = now, so the emitted
Last-Modified never exceeds the response Date — on every branch (412,
304, 200, 206 single, 206 multipart, 416); the historical lib.rs serve
emits the modification time unclamped, as the counterexample shows. -/
theorem C8_lastModified_clamped (e : Entity) (req : Request) (now m : Nat)
    (hm : req.method = Method.get ∨ req.method = Method.head)
    (hlm : e.last_modified = Option.some m) :
    (Serving.serve e req now).lastModified = Option.some (min m now)
    ∧ (Serving.serve e req now).date = Option.some now
    ∧ min m now ≤ now := by
  have hcond : ¬(req.method ≠ Method.get ∧ req.method ≠ Method.head) := by
    rcases hm with hm | hm <;> simp [hm]
  have key : (Serving.serve e req now).lastModified = Option.some (min m now)
      ∧ (Serving.serve e req now).date = Option.some now := by
    simp only [Serving.serve, if_neg hcond]
    split
    · simp [hlm]
    · split
      · simp [hlm]
      · split
        · simp [hlm]
        · split
          · simp [hlm]
          · split
            · simp [Serving.sendMultipart, hlm]
            · simp [hlm]
        · simp [hlm]
  exact ⟨key.1, key.2, Nat.min_le_right m now⟩

/-- C8 witness: the clamping theorem at modification time 773 and
response Date 50: serving.rs serve emits Last-Modified 50 = min(773, 50),
not exceeding the Date. -/
theorem C8_witness :
    (({ Request.bare Method.get with range := Option.none } : Request).method
        = Method.get
      ∨ ({ Request.bare Method.get with range := Option.none } : Request).method
        = Method.head)
    ∧ (Serving.serve
        { len := 5, etag := Option.none, last_modified := Option.some 773,
          headersRendered := "" }
        { Request.bare Method.get with range := Option.none } 50).lastModified
        = Option.some (min 773 50)
    ∧ (Serving.serve
        { len := 5, etag := Option.none, last_modified := Option.some 773,
          headersRendered := "" }
        { Request.bare Method.get with range := Option.none } 50).date
        = Option.some 50
    ∧ min 773 50 ≤ 50 := by
  have h := C8_lastModified_clamped
    { len := 5, etag := Option.none, last_modified := Option.some 773,
      headersRendered := "" }
    { Request.bare Method.get with range := Option.none } 50 773
    (Or.inl rfl) rfl
  exact ⟨Or.inl rfl, h.1, h.2.1, h.2.2⟩

/-- C4 witness: the amended theorem applied at the RFC example
from-to(0, 499) against length 10000. -/
theorem C4_witness :
    parse_range_header
        (Option.some (RangeHeader.bytes [ByteRangeSpec.fromTo 0 499])) 10000
      = ResolvedRanges.satisfiable [⟨0, 500⟩] := by
  have h := C4_fromTo_clamped 0 499 10000 (by decide)
  simpa using h

end HttpServe
